import Mathlib

/-!
Verification of the Structure node type of astrodendro (src/astrodendro/components.py)
against its natural-language specification.

The embedding models Python values as follows: pixel values are integers
(the claims under study do not depend on float rounding), pixel coordinates
are pairs of naturals, and fallible Python code is embedded as Except over an
error-kind type.  Attribute slots that the constructor may or may not assign
are Option fields; a field that is none models an attribute that was never
assigned, so that reading it raises AttributeError.  Properties whose Python
body can recurse without bound are embedded with an explicit fuel parameter
standing for the available interpreter stack: a result of none for every fuel
means the Python code never returns (RecursionError).

The mutable parent and cache links of the tree (parent, cached ancestor,
cached level) cannot live inside an inductive value, so the stateful queries
(ancestor, level, fill_footprint) are embedded over an id-indexed forest:
parent and the caches are maps from node ids to optional node ids or levels,
exactly mirroring the attribute reads and writes of the source.
-/

namespace Astrodendro

/-- Kinds of Python exceptions relevant to components.py, plus the
InvalidInput error kind that the specification names. -/
inductive PyErr where
  | invalidInput
  | valueError
  | attributeError
  | recursionError
  | typeError
deriving DecidableEq

/-- A pixel coordinate (an index tuple into the data array). -/
abbrev Coord := Nat × Nat

/-- The values argument of the constructor as it is recorded in merge_level:
either one scalar pixel value or a whole sequence of values. -/
inductive PyVal where
  | scalar (v : Int)
  | seq (vs : List Int)
deriving DecidableEq

/-- The (indices, values) argument pair of the constructor.  components.py
branches on np.isscalar(values); the scalar calling convention passes one
coordinate and one value, the sequence convention passes parallel lists. -/
inductive PixArg where
  | scalar (index : Coord) (value : Int)
  | seq (indices : List Coord) (values : List Int)

/-- The Structure object as left behind by Structure.__init__.  The fields
are, in order: merge_level (assigned only when children is nonempty),
children, the _indices list, the _values list, _vmin_sel (the misspelled
attribute assigned in the scalar branch), _vmin and _vmax (assigned in the
sequence branch; _vmax also in the scalar branch), vmin and vmax (read by
height but never assigned by any code path that runs to completion),
_peak and _npix_total (never assigned by __init__; hasattr is false), and
idx.  The mutable parent back-reference cannot be a field of an inductive
value; it is modelled in the id-indexed forest embedding below. -/
inductive Structure where
  | mk : Option PyVal → List Structure → List Coord → List Int →
         Option Int → Option Int → Option Int →
         Option Int → Option Int →
         Option (Coord × Int) → Option Nat → Option Nat → Structure

def Structure.merge_level : Structure → Option PyVal
  | .mk ml _ _ _ _ _ _ _ _ _ _ _ => ml

def Structure.children : Structure → List Structure
  | .mk _ ch _ _ _ _ _ _ _ _ _ _ => ch

def Structure.indicesSelf : Structure → List Coord
  | .mk _ _ inds _ _ _ _ _ _ _ _ _ => inds

def Structure.valuesSelf : Structure → List Int
  | .mk _ _ _ vals _ _ _ _ _ _ _ _ => vals

def Structure.vminSel : Structure → Option Int
  | .mk _ _ _ _ a _ _ _ _ _ _ _ => a

def Structure.vminU : Structure → Option Int
  | .mk _ _ _ _ _ a _ _ _ _ _ _ => a

def Structure.vmaxU : Structure → Option Int
  | .mk _ _ _ _ _ _ a _ _ _ _ _ => a

def Structure.vmin : Structure → Option Int
  | .mk _ _ _ _ _ _ _ a _ _ _ _ => a

def Structure.vmax : Structure → Option Int
  | .mk _ _ _ _ _ _ _ _ a _ _ _ => a

def Structure.peakCache : Structure → Option (Coord × Int)
  | .mk _ _ _ _ _ _ _ _ _ a _ _ => a

def Structure.npixTotalCache : Structure → Option Nat
  | .mk _ _ _ _ _ _ _ _ _ _ a _ => a

def Structure.idx : Structure → Option Nat
  | .mk _ _ _ _ _ _ _ _ _ _ _ a => a

/-- Structure.__init__ (components.py lines 35-62).  When children is truthy
the whole values argument is recorded as merge_level.  The scalar branch sets
_indices = [indices], _values = [values] and assigns _vmin_sel and _vmax;
the sequence branch stores the lists and assigns _vmin = min(values) and
_vmax = max(values), so an empty sequence raises ValueError from min().
The loop `for child in children: child.parent = self` only mutates the
children's parent back-references, which the forest embedding models.
No branch assigns vmin, vmax, _peak or _npix_total. -/
def Structure.init (pix : PixArg) (children : List Structure) (idx : Option Nat) :
    Except PyErr Structure :=
  let ml : Option PyVal :=
    if children.isEmpty then none
    else some (match pix with
               | .scalar _ v => PyVal.scalar v
               | .seq _ vs => PyVal.seq vs)
  match pix with
  | .scalar c v =>
      Except.ok (.mk ml children [c] [v] (some v) none (some v)
                     none none none none idx)
  | .seq cs vs =>
      match vs with
      | [] => Except.error PyErr.valueError
      | v :: rest =>
          Except.ok (.mk ml children cs vs none
                         (some (rest.foldl min v)) (some (rest.foldl max v))
                         none none none none idx)

/-- Whether an Except value is a successful result. -/
def isOkB {α : Type} : Except PyErr α → Bool
  | .ok _ => true
  | .error _ => false

/-- The merge_level value that __init__ records for a given argument pair. -/
def mlOfArg : PixArg → PyVal
  | .scalar _ v => PyVal.scalar v
  | .seq _ vs => PyVal.seq vs

/-- The _indices list that __init__ stores for a given argument pair. -/
def ownIndicesArg : PixArg → List Coord
  | .scalar c _ => [c]
  | .seq cs _ => cs

/-- The _values list that __init__ stores for a given argument pair. -/
def ownValuesArg : PixArg → List Int
  | .scalar _ v => [v]
  | .seq _ vs => vs

/-- Leaf with the single own pixel (0,0) of value 5, id 0:
Structure([(0, 0)], [5], idx=0). -/
def leafA : Structure :=
  .mk none [] [(0, 0)] [5] none (some 5) (some 5) none none none none (some 0)

theorem leafA_init :
    Structure.init (PixArg.seq [(0, 0)] [5]) [] (some 0) = Except.ok leafA := rfl

/-- Leaf with the single own pixel (1,1) of value 3, id 1. -/
def leafB : Structure :=
  .mk none [] [(1, 1)] [3] none (some 3) (some 3) none none none none (some 1)

theorem leafB_init :
    Structure.init (PixArg.seq [(1, 1)] [3]) [] (some 1) = Except.ok leafB := rfl

/-- Branch over leafA and leafB created with the scalar pixel (2,2) of value
4, id 2: Structure((2, 2), 4, children=[leafA, leafB], idx=2). -/
def branchB : Structure :=
  .mk (some (PyVal.scalar 4)) [leafA, leafB] [(2, 2)] [4]
      (some 4) none (some 4) none none none none (some 2)

theorem branchB_init :
    Structure.init (PixArg.scalar (2, 2) 4) [leafA, leafB] (some 2) =
      Except.ok branchB := rfl

/-- Branch created with a whole value sequence, id 7:
Structure([(2, 2)], [4, 6], children=[leafA], idx=7). -/
def branchSeq : Structure :=
  .mk (some (PyVal.seq [4, 6])) [leafA] [(2, 2)] [4, 6]
      none (some 4) (some 6) none none none none (some 7)

theorem branchSeq_init :
    Structure.init (PixArg.seq [(2, 2)] [4, 6]) [leafA] (some 7) =
      Except.ok branchSeq := rfl

/-- C2 counterexample: the constructor called with an empty pixel sequence
fails with ValueError (from min of an empty sequence), which is not the
InvalidInput error kind, and the constructor called with an empty children
sequence is silently accepted, so branch creation with no children does not
fail at all. -/
theorem C2_counterexample :
    Structure.init (PixArg.seq [] []) [] none = Except.error PyErr.valueError ∧
    PyErr.valueError ≠ PyErr.invalidInput ∧
    isOkB (Structure.init (PixArg.scalar (0, 0) 5) [] none) = true := by
  refine ⟨rfl, by decide, rfl⟩

/-- C2 amended: creation from an empty pixel sequence fails, but with the
ValueError raised by min() on an empty sequence rather than an InvalidInput
error, and creation with an empty children sequence is silently accepted,
yielding a childless node with no merge_level; the constructor performs no
input validation of its own. -/
theorem C2_amended (inds : List Coord) (children : List Structure)
    (idx : Option Nat) (c : Coord) (v : Int) (idx2 : Option Nat) :
    Structure.init (PixArg.seq inds []) children idx =
      Except.error PyErr.valueError ∧
    Structure.init (PixArg.scalar c v) [] idx2 =
      Except.ok (.mk none [] [c] [v] (some v) none (some v)
                     none none none none idx2) := by
  exact ⟨rfl, rfl⟩

/-- C10: the single constructor serves leaf and branch creation alike; when
children is nonempty, merge_level is set to the entire values argument
exactly as passed (for a sequence argument, the whole sequence and not a
scalar threshold), while the indices/values arguments are stored as the
node's own pixel data, which is always nonempty on success, so every branch
also owns pixel data at creation. -/
theorem C10_branch_merge_level (pix : PixArg) (children : List Structure)
    (idx : Option Nat) (s : Structure)
    (hch : children ≠ [])
    (h : Structure.init pix children idx = Except.ok s) :
    s.merge_level = some (mlOfArg pix) ∧
    s.indicesSelf = ownIndicesArg pix ∧
    s.valuesSelf = ownValuesArg pix ∧
    s.valuesSelf ≠ [] ∧
    s.children = children ∧
    (∀ cs vs, pix = PixArg.seq cs vs → s.merge_level = some (PyVal.seq vs)) := by
  cases children with
  | nil => exact absurd rfl hch
  | cons c0 crest =>
    cases pix with
    | scalar c v =>
      simp only [Structure.init, List.isEmpty_cons, if_neg] at h
      cases h
      refine ⟨rfl, rfl, rfl, by simp [Structure.valuesSelf], rfl, ?_⟩
      intro cs vs hcontr
      exact PixArg.noConfusion hcontr
    | seq cs vs =>
      cases vs with
      | nil => exact Except.noConfusion h
      | cons v rest =>
        simp only [Structure.init, List.isEmpty_cons, if_neg] at h
        cases h
        refine ⟨rfl, rfl, rfl, by simp [Structure.valuesSelf], rfl, ?_⟩
        intro cs2 vs2 harg
        cases harg
        rfl

/-- C10 witness: instantiated at the branch built from the value sequence
[4, 6] over the child leafA. -/
theorem C10_branch_merge_level_witness :
    branchSeq.merge_level = some (mlOfArg (PixArg.seq [(2, 2)] [4, 6])) ∧
    branchSeq.indicesSelf = ownIndicesArg (PixArg.seq [(2, 2)] [4, 6]) ∧
    branchSeq.valuesSelf = ownValuesArg (PixArg.seq [(2, 2)] [4, 6]) ∧
    branchSeq.valuesSelf ≠ [] ∧
    branchSeq.children = [leafA] ∧
    (∀ cs vs, PixArg.seq [(2, 2)] [4, 6] = PixArg.seq cs vs →
      branchSeq.merge_level = some (PyVal.seq vs)) :=
  C10_branch_merge_level (PixArg.seq [(2, 2)] [4, 6]) [leafA] (some 7)
    branchSeq (List.cons_ne_nil _ _) rfl

/-- The values property (components.py lines 90-100) and its recursion into
children, embedded with fuel for the interpreter stack.  The source builds
sub_values from child.values for every child and then returns
`self.values + sub_values`: the final term reads the values property of the
same object again instead of values_self, so the body recurs into itself.
The inl branch is the property body on one node, the inr branch is the
accumulation loop over a children list. -/
def valuesGo : Nat → Structure ⊕ List Structure → Option (List Int)
  | 0, _ => none
  | fuel + 1, Sum.inl s =>
    (valuesGo fuel (Sum.inr s.children)).bind fun sub =>
      (valuesGo fuel (Sum.inl s)).bind fun own => some (own ++ sub)
  | _ + 1, Sum.inr [] => some []
  | fuel + 1, Sum.inr (c :: cs) =>
    (valuesGo fuel (Sum.inl c)).bind fun v =>
      (valuesGo fuel (Sum.inr cs)).bind fun rest => some (v ++ rest)

/-- Reading the values property of a structure with a given stack budget. -/
def Structure.values (fuel : Nat) (s : Structure) : Option (List Int) :=
  valuesGo fuel (Sum.inl s)

/-- The values property never returns a value, at any recursion depth: the
self-referential final term exhausts every finite stack. -/
theorem values_never_returns : ∀ (fuel : Nat) (s : Structure),
    Structure.values fuel s = none := by
  intro fuel
  induction fuel with
  | zero => intro s; rfl
  | succ f ih =>
    intro s
    show (valuesGo f (Sum.inr s.children)).bind _ = none
    cases valuesGo f (Sum.inr s.children) with
    | none => rfl
    | some sub => simp [Structure.values] at ih; simp [ih s]

/-- The indices property (components.py lines 71-81), embedded with the same
fuel discipline: sub_indices is accumulated from child.indices and the
result is `self.indices_self + sub_indices`.  Unlike values, the final term
correctly reads indices_self, so the recursion descends only into children
and enough fuel produces a result. -/
def indicesGo : Nat → Structure ⊕ List Structure → Option (List Coord)
  | 0, _ => none
  | fuel + 1, Sum.inl s =>
    (indicesGo fuel (Sum.inr s.children)).bind fun sub =>
      some (s.indicesSelf ++ sub)
  | _ + 1, Sum.inr [] => some []
  | fuel + 1, Sum.inr (c :: cs) =>
    (indicesGo fuel (Sum.inl c)).bind fun i =>
      (indicesGo fuel (Sum.inr cs)).bind fun rest => some (i ++ rest)

/-- Reading the indices property of a structure with a given stack budget. -/
def Structure.indices (fuel : Nat) (s : Structure) : Option (List Coord) :=
  indicesGo fuel (Sum.inl s)

/-- C1: on the branch over two leaves, the indices property does return
indices_self concatenated with every child's subtree indices, but the values
property returns nothing at any recursion depth, so values is not
values_self concatenated with the children's values and the claimed
len(indices) == len(values) equality cannot hold: reading values raises
RecursionError. -/
theorem C1_values_diverges :
    (∀ fuel, Structure.values fuel branchB = none) ∧
    Structure.indices 5 branchB = some [(2, 2), (0, 0), (1, 1)] :=
  ⟨fun fuel => values_never_returns fuel branchB, by decide⟩

/-- Structure._add_pixel (components.py lines 109-125).
`self.indices.append(index)` appends to the fresh list built by the indices
property, mutating no stored state and raising nothing; then
`self.values.append(value)` evaluates the values property, which never
returns; were a value ever produced, `min(value, self.vmin)` would read the
never-assigned vmin attribute. -/
def Structure.addPixel (fuel : Nat) (s : Structure) (_index : Coord)
    (_value : Int) : Except PyErr Structure :=
  match Structure.indices fuel s with
  | none => Except.error PyErr.recursionError
  | some _ =>
    match Structure.values fuel s with
    | none => Except.error PyErr.recursionError
    | some _ => Except.error PyErr.attributeError

/-- Structure._merge (components.py lines 127-136): same shape as _add_pixel
(extend via the indices and values properties, then read vmin/vmax). -/
def Structure.mergeWith (fuel : Nat) (s _other : Structure) :
    Except PyErr Structure :=
  match Structure.indices fuel s with
  | none => Except.error PyErr.recursionError
  | some _ =>
    match Structure.values fuel s with
    | none => Except.error PyErr.recursionError
    | some _ => Except.error PyErr.attributeError

/-- _add_pixel can never complete: it always raises (RecursionError once the
values property is reached, or earlier if the stack is already short).  In
particular no call path ever assigns the vmin/vmax attributes. -/
theorem addPixel_never_ok : ∀ (fuel : Nat) (s : Structure) (i : Coord)
    (v : Int), isOkB (Structure.addPixel fuel s i v) = false := by
  intro fuel s i v
  unfold Structure.addPixel
  cases h : Structure.indices fuel s with
  | none => rfl
  | some l => rw [values_never_returns]; rfl

/-- _merge can never complete either. -/
theorem mergeWith_never_ok : ∀ (fuel : Nat) (s other : Structure),
    isOkB (Structure.mergeWith fuel s other) = false := by
  intro fuel s other
  unfold Structure.mergeWith
  cases h : Structure.indices fuel s with
  | none => rfl
  | some l => rw [values_never_returns]; rfl

/-- The height property (components.py lines 142-147).  The parent check
itself reads an attribute that always exists; both branches then evaluate
self.vmax first (`self.vmax - self.vmin` and
`self.vmax - self.parent.merge_level`).  __init__ assigns _vmax, _vmin and
_vmin_sel, never vmax or vmin, and _add_pixel/_merge fail before their
vmin/vmax assignments run, so the vmax slot of every reachable structure is
empty.  The parentMergeLevel argument carries the parent's merge_level when
the node has a parent (none models a root). -/
def Structure.height (s : Structure) (parentMergeLevel : Option PyVal) :
    Except PyErr Int :=
  match s.vmax with
  | none => Except.error PyErr.attributeError
  | some vmax =>
    match parentMergeLevel with
    | none =>
      match s.vmin with
      | none => Except.error PyErr.attributeError
      | some vmin => Except.ok (vmax - vmin)
    | some (PyVal.scalar m) => Except.ok (vmax - m)
    | some (PyVal.seq _) => Except.error PyErr.typeError

/-- C7: height reads self.vmax and self.vmin, but __init__ assigns only the
underscored attributes _vmax / _vmin (or the misspelled _vmin_sel), so on
every structure the constructor produces, height raises AttributeError for
root and child alike, instead of returning value_range.max minus the merge
level or the minimum. -/
theorem C7_height_attribute_error (pix : PixArg) (children : List Structure)
    (idx : Option Nat) (s : Structure) (parentMergeLevel : Option PyVal)
    (h : Structure.init pix children idx = Except.ok s) :
    Structure.height s parentMergeLevel = Except.error PyErr.attributeError := by
  have hv : s.vmax = none := by
    cases pix with
    | scalar c v =>
      simp only [Structure.init] at h
      cases h
      rfl
    | seq cs vs =>
      cases vs with
      | nil => exact Except.noConfusion h
      | cons v rest =>
        simp only [Structure.init] at h
        cases h
        rfl
  unfold Structure.height
  rw [hv]

/-- C7 witness: the leaf built from pixel (0,0) with value 5, queried as a
root. -/
theorem C7_height_attribute_error_witness :
    Structure.height leafA none = Except.error PyErr.attributeError :=
  C7_height_attribute_error (PixArg.seq [(0, 0)] [5]) [] (some 0) leafA none
    leafA_init

/-- get_npix (components.py lines 266-281).  The non-subtree branch returns
len(self.f), and the attribute f is never assigned anywhere in the class, so
it raises AttributeError.  The subtree branch returns the cached _npix_total
if present (it never is after __init__); otherwise it evaluates
len(self.values), which never returns, and would then read the never
assigned children_structures attribute. -/
def Structure.getNpix (fuel : Nat) (s : Structure) (subtree : Bool) :
    Except PyErr Nat :=
  if subtree = false then
    Except.error PyErr.attributeError
  else
    match s.npixTotalCache with
    | some n => Except.ok n
    | none =>
      match Structure.values fuel s with
      | none => Except.error PyErr.recursionError
      | some _ => Except.error PyErr.attributeError

/-- C5: get_npix never returns a pixel count.  With subtree=False it raises
AttributeError reading the nonexistent attribute f instead of returning the
own pixel count, and with subtree=True it raises RecursionError through the
values property instead of returning own plus descendant counts. -/
theorem C5_get_npix_fails :
    (∀ fuel, Structure.getNpix fuel leafA false =
      Except.error PyErr.attributeError) ∧
    (∀ fuel, Structure.getNpix fuel leafA true =
      Except.error PyErr.recursionError) := by
  refine ⟨fun fuel => rfl, fun fuel => ?_⟩
  show (match Structure.values fuel leafA with
        | none => Except.error PyErr.recursionError
        | some _ => Except.error PyErr.attributeError) =
      Except.error PyErr.recursionError
  rw [values_never_returns]

/-- get_peak (components.py lines 283-299).  With no cached _peak (the state
every structure is created in), the cache line evaluates
`self.indices[self.values.index(self.vmax)]`: self.indices terminates, but
self.values never returns, so the call raises RecursionError before the
never-assigned vmax attribute is even read.  Had a _peak been cached, the
subtree branch would read the never-assigned children_structures
attribute. -/
def Structure.getPeak (fuel : Nat) (s : Structure) (subtree : Bool) :
    Except PyErr (Coord × Int) :=
  match s.peakCache with
  | none =>
    match Structure.indices fuel s with
    | none => Except.error PyErr.recursionError
    | some _ =>
      match Structure.values fuel s with
      | none => Except.error PyErr.recursionError
      | some _ => Except.error PyErr.attributeError
  | some pk =>
    if subtree = false then Except.ok pk
    else Except.error PyErr.attributeError

/-- C6: on the branch over the leaves with peak pixels ((0,0),5) and
((1,1),3), get_peak raises RecursionError for both the local and the subtree
query (the values property never returns), instead of returning the
maximum-value pixel ((2,2),4 locally, ((0,0),5) over the subtree). -/
theorem C6_get_peak_fails :
    (∀ fuel, Structure.getPeak fuel branchB false =
      Except.error PyErr.recursionError) ∧
    (∀ fuel, Structure.getPeak fuel branchB true =
      Except.error PyErr.recursionError) := by
  constructor <;>
    · intro fuel
      unfold Structure.getPeak
      cases h : Structure.indices fuel branchB with
      | none => rfl
      | some l => rw [values_never_returns]; rfl

/-- Point update of an id-indexed cache map (an attribute assignment on the
node with the given id). -/
def updateF (f : Nat → Option Nat) (k v : Nat) : Nat → Option Nat :=
  fun n => if n = k then some v else f n

/-- One step of the ancestor loop body (components.py lines 173-179):
`a = self._ancestor; self._ancestor = a._ancestor if a._ancestor else
a.parent`.  cur is the current value of self._ancestor and p its parent,
already known to exist from the loop guard. -/
def ancStep (anc : Nat → Option Nat) (cur p : Nat) : Nat :=
  match anc cur with
  | some a => a
  | none => p

/-- The while loop of the ancestor property: while self._ancestor has a
parent, replace self._ancestor by the cached ancestor of that node when one
is set, by its parent otherwise.  The loop variable cur is the running value
of self._ancestor; it is the only attribute the loop writes, and under
acyclic parent links every node it reads a cache from is a proper ancestor
of self, so reading the unmodified cache map is faithful.  The fuel bounds
the number of iterations. -/
def ancestorLoop (parent anc : Nat → Option Nat) : Nat → Nat → Nat
  | 0, cur => cur
  | fuel + 1, cur =>
    match parent cur with
    | none => cur
    | some p => ancestorLoop parent anc fuel (ancStep anc cur p)

/-- The ancestor property (components.py lines 149-181) on the id-indexed
forest.  A node with no parent returns itself at once, without touching the
cache.  Otherwise self._ancestor is seeded with the parent when unset, the
loop runs, and the final value of self._ancestor — the returned node — is
the single cache cell the query leaves written.  The result is the answer
paired with the cache map after the query. -/
def ancestor (parent anc : Nat → Option Nat) (fuel x : Nat) :
    Nat × (Nat → Option Nat) :=
  match parent x with
  | none => (x, anc)
  | some p =>
    (ancestorLoop parent anc fuel ((anc x).getD p),
     updateF anc x (ancestorLoop parent anc fuel ((anc x).getD p)))

/-- Under a depth measure that decreases along parent links and along cached
ancestor links, the loop reaches a node with no parent whenever the fuel is
at least the starting depth. -/
theorem ancestorLoop_no_parent (parent anc : Nat → Option Nat)
    (depth : Nat → Nat)
    (hpar : ∀ y p, parent y = some p → depth p < depth y)
    (hanc : ∀ y a, anc y = some a → depth a < depth y) :
    ∀ fuel cur, depth cur ≤ fuel →
      parent (ancestorLoop parent anc fuel cur) = none := by
  intro fuel
  induction fuel with
  | zero =>
    intro cur hc
    cases hp : parent cur with
    | none => simpa [ancestorLoop] using hp
    | some p => exact absurd (hpar cur p hp) (by omega)
  | succ f ih =>
    intro cur hc
    cases hp : parent cur with
    | none => simp [ancestorLoop, hp]
    | some p =>
      have hlt : depth (ancStep anc cur p) < depth cur := by
        unfold ancStep
        cases ha : anc cur with
        | some a => exact hanc cur a ha
        | none => exact hpar cur p hp
      simp only [ancestorLoop, hp]
      exact ih (ancStep anc cur p) (by omega)

/-- The loop never climbs below the depth of its starting node. -/
theorem ancestorLoop_depth_le (parent anc : Nat → Option Nat)
    (depth : Nat → Nat)
    (hpar : ∀ y p, parent y = some p → depth p < depth y)
    (hanc : ∀ y a, anc y = some a → depth a < depth y) :
    ∀ fuel cur, depth (ancestorLoop parent anc fuel cur) ≤ depth cur := by
  intro fuel
  induction fuel with
  | zero => intro cur; simp [ancestorLoop]
  | succ f ih =>
    intro cur
    cases hp : parent cur with
    | none => simp [ancestorLoop, hp]
    | some p =>
      have hstep : depth (ancStep anc cur p) < depth cur := by
        unfold ancStep
        cases ha : anc cur with
        | some a => exact hanc cur a ha
        | none => exact hpar cur p hp
      simp only [ancestorLoop, hp]
      exact le_trans (ih (ancStep anc cur p)) (le_of_lt hstep)

/-- The answer of an ancestor query has no parent, given acyclic parent
links, caches pointing to proper ancestors, and fuel at least the depth of
the queried node. -/
theorem ancestor_answer_no_parent (parent anc : Nat → Option Nat)
    (depth : Nat → Nat)
    (hpar : ∀ y p, parent y = some p → depth p < depth y)
    (hanc : ∀ y a, anc y = some a → depth a < depth y)
    (x fuel : Nat) (hfuel : depth x ≤ fuel) :
    parent (ancestor parent anc fuel x).1 = none := by
  cases hp : parent x with
  | none => simp [ancestor, hp]
  | some p =>
    have hd : depth ((anc x).getD p) ≤ fuel := by
      cases ha : anc x with
      | some a => have := hanc x a ha; simp only [ha, Option.getD]; omega
      | none => have := hpar x p hp; simp only [ha, Option.getD]; omega
    simp only [ancestor, hp]
    exact ancestorLoop_no_parent parent anc depth hpar hanc fuel _ hd

/-- On a node with no parent, the ancestor query answers the node itself,
whatever the cache and fuel. -/
theorem ancestor_of_root (parent anc : Nat → Option Nat) (fuel y : Nat)
    (hy : parent y = none) : (ancestor parent anc fuel y).1 = y := by
  simp [ancestor, hy]

/-- C3: in a forest with acyclic parent links (witnessed by a depth measure
decreasing along parent links, with cached ancestors likewise pointing to
proper ancestors, as every cache state reachable from the fresh all-None
caches does), the node answered by the ancestor query has no parent, the
query is idempotent — querying the answer again, under any later cache state
and fuel, answers the same node — and a node with no parent answers
itself. -/
theorem C3_ancestor_idempotent (parent anc : Nat → Option Nat)
    (depth : Nat → Nat)
    (hpar : ∀ y p, parent y = some p → depth p < depth y)
    (hanc : ∀ y a, anc y = some a → depth a < depth y)
    (x fuel : Nat) (hfuel : depth x ≤ fuel)
    (anc2 : Nat → Option Nat) (fuel2 : Nat) :
    parent (ancestor parent anc fuel x).1 = none ∧
    (ancestor parent anc2 fuel2 (ancestor parent anc fuel x).1).1 =
      (ancestor parent anc fuel x).1 ∧
    (parent x = none → (ancestor parent anc fuel x).1 = x) := by
  have hroot := ancestor_answer_no_parent parent anc depth hpar hanc x fuel hfuel
  exact ⟨hroot, ancestor_of_root parent anc2 fuel2 _ hroot,
         fun hp => ancestor_of_root parent anc fuel x hp⟩

/-- Parent links of the concrete chain 0 ← 1 ← 2 ← 3 (node 0 is the root). -/
def chainParent : Nat → Option Nat :=
  fun n => if n = 0 then none else if n ≤ 3 then some (n - 1) else none

/-- The all-None ancestor cache (the state __init__ leaves behind). -/
def noAnc : Nat → Option Nat := fun _ => none

theorem chainParent_lt : ∀ y p, chainParent y = some p → p < y := by
  intro y p h
  unfold chainParent at h
  by_cases h0 : y = 0
  · simp [h0] at h
  · by_cases h3 : y ≤ 3
    · simp only [h0, h3, if_false, if_true, if_neg, if_pos,
        Option.some.injEq] at h
      omega
    · simp [h0, h3] at h

theorem noAnc_lt : ∀ y a, noAnc y = some a → a < y := by
  intro y a h
  exact Option.noConfusion h

/-- C3 witness: the chain 0 ← 1 ← 2 ← 3 with fresh caches, queried at node
3 with fuel 5, using the identity depth measure. -/
theorem C3_ancestor_idempotent_witness :
    chainParent (ancestor chainParent noAnc 5 3).1 = none ∧
    (ancestor chainParent noAnc 5 (ancestor chainParent noAnc 5 3).1).1 =
      (ancestor chainParent noAnc 5 3).1 ∧
    (chainParent 3 = none → (ancestor chainParent noAnc 5 3).1 = 3) :=
  C3_ancestor_idempotent chainParent noAnc (fun n => n) chainParent_lt
    noAnc_lt 3 5 (by decide) noAnc 5

/-- C9 counterexample: on the fresh chain 0 ← 1 ← 2 ← 3, the first ancestor
query from node 3 walks through the intermediate nodes 2 and 1 to the root
0, yet afterwards only node 3 carries a cached ancestor pointer; the caches
of the intermediate nodes 2 and 1 are still unset, contradicting the claim
that the walk back-fills ancestor pointers along the walked path. -/
theorem C9_counterexample :
    (ancestor chainParent noAnc 5 3).1 = 0 ∧
    (ancestor chainParent noAnc 5 3).2 3 = some 0 ∧
    (ancestor chainParent noAnc 5 3).2 2 = none ∧
    (ancestor chainParent noAnc 5 3).2 1 = none := by decide

/-- C9 amended: the first ancestor query from a node walks to the root,
jumping through intermediate caches when they are already set, and writes the
found root into the cached ancestor pointer of the queried node only; the
caches of the intermediate nodes it passes through are read but never
written, so only repeated queries from the same node shortcut directly. -/
theorem C9_query_caches_only_self (parent anc : Nat → Option Nat)
    (depth : Nat → Nat)
    (hpar : ∀ y p, parent y = some p → depth p < depth y)
    (hanc : ∀ y a, anc y = some a → depth a < depth y)
    (x p fuel : Nat) (hx : parent x = some p) (hfuel : depth x ≤ fuel) :
    (ancestor parent anc fuel x).2 x = some (ancestor parent anc fuel x).1 ∧
    parent (ancestor parent anc fuel x).1 = none ∧
    (∀ y, y ≠ x → (ancestor parent anc fuel x).2 y = anc y) := by
  refine ⟨?_, ancestor_answer_no_parent parent anc depth hpar hanc x fuel hfuel, ?_⟩
  · simp [ancestor, hx, updateF]
  · intro y hy
    simp [ancestor, hx, updateF, hy]

/-- C9 amended witness: the fresh chain queried at node 3 with fuel 5. -/
theorem C9_query_caches_only_self_witness :
    (ancestor chainParent noAnc 5 3).2 3 = some (ancestor chainParent noAnc 5 3).1 ∧
    chainParent (ancestor chainParent noAnc 5 3).1 = none ∧
    (∀ y, y ≠ 3 → (ancestor chainParent noAnc 5 3).2 y = noAnc y) :=
  C9_query_caches_only_self chainParent noAnc (fun n => n) chainParent_lt
    noAnc_lt 3 2 5 rfl (by decide)

/-- The while loop of the level property (components.py lines 223-227):
starting from obj = self.parent and diff = 1, climb parents while the
visited node has no cached level, counting the distance.  Answers the first
cached level found together with the distance at which it was found; none
models the AttributeError of stepping past a root whose level was never
seeded (obj becomes None) as well as running out of stack. -/
def levelWalk (parent lvl : Nat → Option Nat) : Nat → Nat → Nat → Option (Nat × Nat)
  | 0, _, _ => none
  | fuel + 1, obj, diff =>
    match lvl obj with
    | some L => some (L, diff)
    | none =>
      match parent obj with
      | none => none
      | some p => levelWalk parent lvl fuel p (diff + 1)

/-- The level property (components.py lines 205-233) on the id-indexed
forest.  A cached level is returned as is; a root caches and returns 0; a
node whose parent has a cached level caches and returns that plus one;
otherwise the walk finds the nearest cached ancestor level L at distance d,
the node caches L + d, and — the only back-fill the code performs — its
immediate parent caches L + d - 1.  The result pairs the returned level with
the cache map after the query. -/
def level (parent lvl : Nat → Option Nat) (fuel x : Nat) :
    Option (Nat × (Nat → Option Nat)) :=
  match lvl x with
  | some L => some (L, lvl)
  | none =>
    match parent x with
    | none => some (0, updateF lvl x 0)
    | some p =>
      match lvl p with
      | some Lp => some (Lp + 1, updateF lvl x (Lp + 1))
      | none =>
        match levelWalk parent lvl fuel p 1 with
        | none => none
        | some (L, d) =>
          some (L + d, updateF (updateF lvl x (L + d)) p (L + d - 1))

/-- The walk invariant: when every cached level is the true level and the
true level steps by one along parent links, a successful walk from obj at
distance diff answers L and d with L + d equal to the true level of obj
plus diff, and the distance never decreases. -/
theorem levelWalk_correct (parent lvl : Nat → Option Nat)
    (trueLvl : Nat → Nat)
    (hstep : ∀ y p, parent y = some p → trueLvl y = trueLvl p + 1)
    (hcache : ∀ y L, lvl y = some L → L = trueLvl y) :
    ∀ fuel obj diff L d, levelWalk parent lvl fuel obj diff = some (L, d) →
      L + d = trueLvl obj + diff ∧ diff ≤ d := by
  intro fuel
  induction fuel with
  | zero => intro obj diff L d h; exact Option.noConfusion h
  | succ f ih =>
    intro obj diff L d h
    rw [show levelWalk parent lvl (f + 1) obj diff =
          (match lvl obj with
           | some L => some (L, diff)
           | none =>
             match parent obj with
             | none => none
             | some p => levelWalk parent lvl f p (diff + 1)) from rfl] at h
    cases hl : lvl obj with
    | some L0 =>
      rw [hl] at h
      rw [Option.some.injEq, Prod.mk.injEq] at h
      obtain ⟨rfl, rfl⟩ := h
      have := hcache obj L0 hl
      omega
    | none =>
      rw [hl] at h
      cases hp : parent obj with
      | none => rw [hp] at h; exact Option.noConfusion h
      | some p =>
        rw [hp] at h
        have hrec := ih p (diff + 1) L d h
        have := hstep obj p hp
        omega

/-- The level cache with only the root seeded to 0, the precondition the
source comments on ("we are counting on the dendrogram computation to ensure
that ._level=0 for all nodes in the trunk"). -/
def lvlRoot0 : Nat → Option Nat := fun n => if n = 0 then some 0 else none

/-- C4 counterexample: on the chain 0 ← 1 ← 2 ← 3 with only the root level
cached as 0, resolving the level of node 3 answers 3 and back-fills the
cache of node 2 with 2, but the cache of node 1 — also walked through
without a cached level — is left unset, not back-filled with 1 as the claim
requires. -/
theorem C4_counterexample :
    (level chainParent lvlRoot0 10 3).map
        (fun r => (r.1, r.2 1, r.2 2, r.2 3)) =
      some (3, none, some 2, some 3) := by decide

/-- C4 amended: the level query answers 0 for a root and the parent level
plus one for a child (equivalently, the true depth of the node, given
consistent caches); a successful resolution writes the cache of the queried
node, and of the walked chain back-fills only the immediate parent (with the
answer minus one) — every other node, walked or not, keeps its previous
cache entry. -/
theorem C4_level_backfills_parent_only (parent : Nat → Option Nat)
    (trueLvl : Nat → Nat)
    (hroot : ∀ y, parent y = none → trueLvl y = 0)
    (hstep : ∀ y p, parent y = some p → trueLvl y = trueLvl p + 1)
    (lvl : Nat → Option Nat)
    (hcache : ∀ y L, lvl y = some L → L = trueLvl y)
    (fuel x L : Nat) (lvlPost : Nat → Option Nat)
    (h : level parent lvl fuel x = some (L, lvlPost)) :
    L = trueLvl x ∧
    lvlPost x = some (trueLvl x) ∧
    (∀ y L2, lvlPost y = some L2 → L2 = trueLvl y) ∧
    (∀ y, y ≠ x → parent x ≠ some y → lvlPost y = lvl y) := by
  unfold level at h
  cases hx : lvl x with
  | some L0 =>
    simp only [hx, Option.some.injEq, Prod.mk.injEq] at h
    obtain ⟨rfl, rfl⟩ := h
    have hL := hcache x L0 hx
    exact ⟨hL, by rw [hx, hL], hcache, fun y _ _ => rfl⟩
  | none =>
    simp only [hx] at h
    cases hp : parent x with
    | none =>
      simp only [hp, Option.some.injEq, Prod.mk.injEq] at h
      obtain ⟨rfl, rfl⟩ := h
      have h0 := hroot x hp
      refine ⟨h0.symm, ?_, ?_, ?_⟩
      · simp [updateF, h0]
      · intro y L2 hy
        unfold updateF at hy
        by_cases hyx : y = x
        · rw [if_pos hyx] at hy
          rw [Option.some.injEq] at hy
          rw [← hy, hyx, h0]
        · rw [if_neg hyx] at hy
          exact hcache y L2 hy
      · intro y hy _
        unfold updateF
        rw [if_neg hy]
    | some p =>
      simp only [hp] at h
      have hx_lvl : trueLvl x = trueLvl p + 1 := hstep x p hp
      have hpx : p ≠ x := by
        intro hcontr
        rw [hcontr] at hx_lvl
        omega
      cases hpl : lvl p with
      | some Lp =>
        simp only [hpl, Option.some.injEq, Prod.mk.injEq] at h
        obtain ⟨rfl, rfl⟩ := h
        have hLp := hcache p Lp hpl
        refine ⟨by omega, ?_, ?_, ?_⟩
        · simp [updateF, hLp, hx_lvl]
        · intro y L2 hy
          unfold updateF at hy
          by_cases hyx : y = x
          · rw [if_pos hyx] at hy
            rw [Option.some.injEq] at hy
            rw [← hy, hyx]
            omega
          · rw [if_neg hyx] at hy
            exact hcache y L2 hy
        · intro y hy _
          unfold updateF
          rw [if_neg hy]
      | none =>
        simp only [hpl] at h
        cases hw : levelWalk parent lvl fuel p 1 with
        | none =>
          simp only [hw] at h
          exact Option.noConfusion h
        | some r =>
          obtain ⟨L0, d⟩ := r
          simp only [hw, Option.some.injEq, Prod.mk.injEq] at h
          obtain ⟨rfl, rfl⟩ := h
          have hwalk := levelWalk_correct parent lvl trueLvl hstep hcache
            fuel p 1 L0 d hw
          have hsum : L0 + d = trueLvl x := by omega
          refine ⟨hsum, ?_, ?_, ?_⟩
          · simp [updateF, Ne.symm hpx, hsum]
          · intro y L2 hy
            unfold updateF at hy
            by_cases hyp : y = p
            · rw [if_pos hyp] at hy
              rw [Option.some.injEq] at hy
              rw [← hy, hyp]
              omega
            · rw [if_neg hyp] at hy
              by_cases hyx : y = x
              · rw [if_pos hyx] at hy
                rw [Option.some.injEq] at hy
                rw [← hy, hyx]
                omega
              · rw [if_neg hyx] at hy
                exact hcache y L2 hy
          · intro y hyx hyp
            have hyp2 : y ≠ p := by
              intro hcontr
              exact hyp (by rw [hcontr])
            unfold updateF
            rw [if_neg hyp2, if_neg hyx]

/-- The true level (depth) of the nodes of the concrete chain. -/
def chainTrue : Nat → Nat := fun n => if n ≤ 3 then n else 0

theorem chainTrue_root : ∀ y, chainParent y = none → chainTrue y = 0 := by
  intro y h
  unfold chainParent at h
  unfold chainTrue
  by_cases h0 : y = 0
  · simp [h0]
  · by_cases h3 : y ≤ 3
    · simp [h0, h3] at h
    · simp [h3]

theorem chainTrue_step :
    ∀ y p, chainParent y = some p → chainTrue y = chainTrue p + 1 := by
  intro y p h
  unfold chainParent at h
  by_cases h0 : y = 0
  · simp [h0] at h
  · by_cases h3 : y ≤ 3
    · simp only [h0, h3, if_neg, if_pos, if_true, if_false,
        Option.some.injEq] at h
      unfold chainTrue
      rw [if_pos h3]
      have hp3 : p ≤ 3 := by omega
      rw [if_pos hp3]
      omega
    · simp [h0, h3] at h

theorem lvlRoot0_cache : ∀ y L, lvlRoot0 y = some L → L = chainTrue y := by
  intro y L h
  unfold lvlRoot0 at h
  by_cases h0 : y = 0
  · simp [h0] at h
    simp [chainTrue, h0, h]
  · simp [h0] at h

/-- The cache left behind by resolving the level of node 3 on the seeded
chain: node 3 cached as 3, node 2 back-filled as 2. -/
def chainLvlPost : Nat → Option Nat := updateF (updateF lvlRoot0 3 3) 2 2

/-- C4 amended witness: the seeded chain 0 ← 1 ← 2 ← 3, resolved at node 3
with fuel 10. -/
theorem C4_level_backfills_parent_only_witness :
    3 = chainTrue 3 ∧
    chainLvlPost 3 = some (chainTrue 3) ∧
    (∀ y L2, chainLvlPost y = some L2 → L2 = chainTrue y) ∧
    (∀ y, y ≠ 3 → chainParent 3 ≠ some y → chainLvlPost y = lvlRoot0 y) :=
  C4_level_backfills_parent_only chainParent chainTrue chainTrue_root
    chainTrue_step lvlRoot0 lvlRoot0_cache 10 3 3 chainLvlPost rfl

/-- The array-stamping loop of fill_footprint: `for index in self.indices:
array[index] = self.level`.  Every coordinate in the list is written with
the same level value (the property is cached after its first read inside
the loop). -/
def stampAll (inds : List Coord) (L : Nat) (arr : Coord → Option Nat) :
    Coord → Option Nat :=
  inds.foldl (fun a i => fun j => if j = i then some L else a j) arr

/-- The full-subtree indices property on the id-indexed forest (the same
recursion as Structure.indices, over node ids): indices_self of the node
followed by the full indices of every child. -/
def indicesMGo (childrenOf : Nat → List Nat) (indicesSelf : Nat → List Coord) :
    Nat → Nat ⊕ List Nat → Option (List Coord)
  | 0, _ => none
  | fuel + 1, Sum.inl x =>
    (indicesMGo childrenOf indicesSelf fuel (Sum.inr (childrenOf x))).bind
      fun sub => some (indicesSelf x ++ sub)
  | _ + 1, Sum.inr [] => some []
  | fuel + 1, Sum.inr (c :: cs) =>
    (indicesMGo childrenOf indicesSelf fuel (Sum.inl c)).bind fun i =>
      (indicesMGo childrenOf indicesSelf fuel (Sum.inr cs)).bind fun rest =>
        some (i ++ rest)

/-- The footprint array paired with the level cache: the two pieces of state
fill_footprint reads and writes. -/
abbrev FPState := (Coord → Option Nat) × (Nat → Option Nat)

/-- fill_footprint (components.py lines 188-203) on the id-indexed forest.
When recursive, each child is filled first (with recursive=True, the
default); then the node stamps its level at every coordinate of
self.indices — the full-subtree indices property, not indices_self — so a
node overwrites every coordinate its descendants just stamped.  self.level
is read only when the loop body runs, that is when the index list is
nonempty, and its cache writes thread through the state.  The inl branch is
one fill_footprint call, the inr branch the loop over a children list; none
models AttributeError from the level walk as well as fuel exhaustion. -/
def fillGo (childrenOf : Nat → List Nat) (parent : Nat → Option Nat)
    (indicesSelf : Nat → List Coord) :
    Nat → (Nat × Bool) ⊕ List Nat → FPState → Option FPState
  | 0, _, _ => none
  | fuel + 1, Sum.inl (x, rcv), st =>
    (if rcv then fillGo childrenOf parent indicesSelf fuel
        (Sum.inr (childrenOf x)) st
     else some st).bind fun st1 =>
      (indicesMGo childrenOf indicesSelf (fuel + 1) (Sum.inl x)).bind
        fun inds =>
          match inds with
          | [] => some st1
          | _ :: _ =>
            (level parent st1.2 (fuel + 1) x).bind fun r =>
              some (stampAll inds r.1 st1.1, r.2)
  | _ + 1, Sum.inr [], st => some st
  | fuel + 1, Sum.inr (c :: cs), st =>
    (fillGo childrenOf parent indicesSelf fuel (Sum.inl (c, true)) st).bind
      fun st1 => fillGo childrenOf parent indicesSelf fuel (Sum.inr cs) st1

/-- One fill_footprint call on the node with the given id. -/
def fill_footprint (childrenOf : Nat → List Nat) (parent : Nat → Option Nat)
    (indicesSelf : Nat → List Coord) (fuel x : Nat) (recursive : Bool)
    (st : FPState) : Option FPState :=
  fillGo childrenOf parent indicesSelf fuel (Sum.inl (x, recursive)) st

/-- Children map of the two-node tree: root 0 with the single child 1. -/
def childrenOf2 : Nat → List Nat := fun n => if n = 0 then [1] else []

/-- Parent map of the two-node tree. -/
def parent2 : Nat → Option Nat := fun n => if n = 1 then some 0 else none

/-- indices_self of the two-node tree: the root owns pixel (0,0), the child
leaf owns pixel (1,1). -/
def indsSelf2 : Nat → List Coord :=
  fun n => if n = 0 then [(0, 0)] else if n = 1 then [(1, 1)] else []

/-- The fresh footprint array: no coordinate written yet. -/
def arr0 : Coord → Option Nat := fun _ => none

/-- C8: filling the footprint of the two-node tree (root 0 owning pixel
(0,0) with child leaf 1 owning pixel (1,1), root level seeded to 0)
stamps the child pixel (1,1) with the root level 0, not with the owning
leaf's level 1: the child fills first and writes 1 (its level is indeed
resolved to 1, as the final level cache shows), but the root then stamps
its full-subtree indices — self.indices instead of indices_self — and
overwrites the child's pixel.  Untouched coordinates stay unwritten. -/
theorem C8_footprint_overwrites_descendants :
    (fill_footprint childrenOf2 parent2 indsSelf2 10 0 true
        (arr0, lvlRoot0)).map
      (fun st => (st.1 (0, 0), st.1 (1, 1), st.1 (9, 9), st.2 1)) =
    some (some 0, some 0, none, some 1) := by decide

end Astrodendro
